import Mathlib

/-!
Verification of the STFT repository (Python ctypes wrapper `src/examples/stft_ctypes.py`
plus the scipy reference script `src/examples/generate_scipy_stft.py`).

The C engine itself (`stft.c` / `kiss_fft.c`) is referenced by the wrapper but not part
of the visible sources, so the engine-side definitions below are modelled from the spec
(their doc comments say so explicitly).  The Python wrapper and the reference script are
embedded directly from the source.
-/

namespace STFT

/-! ## Framer (engine side) -/

/-- Modelled from the spec: the Framer of the STFT engine (`stft.c`, not under `src/`).
Spec §4.2: "given signal length L, window_size W, hop_size H, produce the ordered
sequence of frame start offsets \x7b0, H, 2H, …\x7d restricted to offsets where
start + W ≤ L"; no padding, no boundary extension. -/
def frameOffsets (L W H : ℕ) : List ℕ :=
  ((List.range (L + 1)).map (· * H)).filter (fun s => s + W ≤ L)

/-- Modelled from the spec: the frame count reported by the engine is the number of
frames the Framer emits (spec §3 Result, §4.2). -/
def frameCount (L W H : ℕ) : ℕ :=
  (frameOffsets L W H).length

lemma length_filter_range_le (m n : ℕ) :
    ((List.range n).filter (fun k => k ≤ m)).length = min (m + 1) n := by
  induction n with
  | zero => simp
  | succ n ih =>
    rw [List.range_succ, List.filter_append, List.length_append, ih]
    by_cases h : n ≤ m
    · have h1 : min (m + 1) n = n := min_eq_right (by omega)
      have h2 : min (m + 1) (n + 1) = n + 1 := min_eq_right (by omega)
      simp [h, h1, h2]
    · have h1 : min (m + 1) n = m + 1 := min_eq_left (by omega)
      have h2 : min (m + 1) (n + 1) = m + 1 := min_eq_left (by omega)
      simp [h, h1, h2]

lemma frameOffsets_eq_filter_map (L W H : ℕ) :
    frameOffsets L W H =
      ((List.range (L + 1)).filter (fun k => k * H + W ≤ L)).map (· * H) := by
  unfold frameOffsets
  rw [List.filter_map]
  rfl

lemma frameCount_eq (L W H : ℕ) (hW : 0 < W) (hH : 0 < H) :
    frameCount L W H = if W ≤ L then (L - W) / H + 1 else 0 := by
  unfold frameCount
  rw [frameOffsets_eq_filter_map L W H, List.length_map]
  by_cases hL : W ≤ L
  · have hiff : ∀ k, (k * H + W ≤ L) ↔ (k ≤ (L - W) / H) := by
      intro k
      rw [Nat.le_div_iff_mul_le hH]
      omega
    have := length_filter_range_le ((L - W) / H) (L + 1)
    have hcongr : (List.range (L + 1)).filter (fun k => k * H + W ≤ L) =
        (List.range (L + 1)).filter (fun k => k ≤ (L - W) / H) := by
      apply List.filter_congr
      intro k _
      simp [hiff k]
    rw [hcongr, this]
    have hdiv : (L - W) / H ≤ L - W := Nat.div_le_self _ _
    have : min ((L - W) / H + 1) (L + 1) = (L - W) / H + 1 :=
      min_eq_left (by omega)
    simp [hL, this]
  · have : (List.range (L + 1)).filter (fun k => k * H + W ≤ L) = [] := by
      apply List.filter_eq_nil_iff.mpr
      intro k _
      simp only [decide_eq_true_eq]
      omega
    simp [hL, this]

lemma frameOffsets_mem (L W H : ℕ) (hW : 0 < W) (hH : 0 < H) (s : ℕ) :
    s ∈ frameOffsets L W H ↔ (∃ k, s = k * H) ∧ s + W ≤ L := by
  unfold frameOffsets
  rw [List.mem_filter]
  simp only [List.mem_map, List.mem_range, decide_eq_true_eq]
  constructor
  · rintro ⟨⟨k, _, rfl⟩, hle⟩
    exact ⟨⟨k, rfl⟩, hle⟩
  · rintro ⟨⟨k, rfl⟩, hle⟩
    refine ⟨⟨k, ?_, rfl⟩, hle⟩
    have : k ≤ k * H := Nat.le_mul_of_pos_right k hH
    omega

/-! ## Decibel conversion -/

/-- The additive epsilon floor used by the dB conversion.  From
`src/examples/generate_scipy_stft.py` line 22 (`magnitude + 1e-10`); spec §4.4 documents
the same constant for the engine. -/
noncomputable def epsFloor : ℝ := 1e-10

/-- Decibel conversion of a magnitude.  From `src/examples/generate_scipy_stft.py`
line 22: `db = 20 * np.log10(magnitude + 1e-10)`; spec §4.4 gives the same formula for
the engine's dB view. -/
noncomputable def dbOf (m : ℝ) : ℝ := 20 * Real.logb 10 (m + epsFloor)

/-- Modelled from the spec: the engine's dB spectrogram view (`stft.c`, not under
`src/`) applies the dB conversion at every (frame, bin) cell of the magnitude grid
(spec §4.4). -/
noncomputable def dbGrid (mag : ℕ → ℕ → ℝ) (frame bin : ℕ) : ℝ :=
  dbOf (mag frame bin)

lemma epsFloor_pos : 0 < epsFloor := by
  unfold epsFloor
  norm_num

lemma dbOf_mono {m₁ m₂ : ℝ} (h0 : 0 ≤ m₁) (h12 : m₁ ≤ m₂) : dbOf m₁ ≤ dbOf m₂ := by
  unfold dbOf
  have hpos : (0 : ℝ) < m₁ + epsFloor := by
    have := epsFloor_pos
    linarith
  have hle : m₁ + epsFloor ≤ m₂ + epsFloor := by linarith
  have := Real.logb_le_logb_of_le (b := 10) (by norm_num) hpos hle
  linarith

/-! ## Result metadata (engine side) -/

/-- The engine configuration marshalled through `STFTParameters` in
`src/examples/stft_ctypes.py` lines 14-20: window size, hop size (samples) and sample
rate (Hz, modelled as a rational). -/
structure EngineConfig where
  window_size : ℕ
  hop_size : ℕ
  sample_rate : ℚ
  deriving Repr, DecidableEq

/-- Modelled from the spec: the frequency bin count of the engine's Result
(`stft.c`, not under `src/`): floor(window_size/2) + 1, the non-redundant half for
real input (spec §4.3). -/
def resultBinCount (c : EngineConfig) : ℕ := c.window_size / 2 + 1

/-- Modelled from the spec: the Result's frame time step (`stft.c`, not under `src/`):
hop_size / sample_rate (spec §3). -/
def resultFrameTime (c : EngineConfig) : ℚ := (c.hop_size : ℚ) / c.sample_rate

/-- Modelled from the spec: the Result's frequency resolution (`stft.c`, not under
`src/`): sample_rate / window_size (spec §3, §4.4). -/
def resultFreqResolution (c : EngineConfig) : ℚ := c.sample_rate / (c.window_size : ℚ)

/-- The fixed end-to-end configuration of `src/examples/stft_ctypes.py` lines 170-177
and `src/examples/generate_scipy_stft.py` lines 5-18: window 62, hop 31, 125 Hz. -/
def mainConfig : EngineConfig := ⟨62, 31, 125⟩

/-! ## Claim theorems: engine side -/

/-- C1: for positive `L`, `W`, `H` the Framer emits exactly the offsets
`k·H` with `k·H + W ≤ L`; the number of frames is `(L−W)/H + 1` when `L ≥ W` and `0`
otherwise; a signal of length exactly `W` yields `1` frame, and length `W − 1` yields
`0` frames. -/
theorem framer_offsets_and_count (L W H : ℕ) (hW : 0 < W) (hH : 0 < H) :
    (∀ s, s ∈ frameOffsets L W H ↔ (∃ k, s = k * H) ∧ s + W ≤ L) ∧
    frameCount L W H = (if W ≤ L then (L - W) / H + 1 else 0) ∧
    frameCount W W H = 1 ∧
    frameCount (W - 1) W H = 0 := by
  refine ⟨fun s => frameOffsets_mem L W H hW hH s, frameCount_eq L W H hW hH, ?_, ?_⟩
  · rw [frameCount_eq W W H hW hH]
    simp
  · rw [frameCount_eq (W - 1) W H hW hH]
    have : ¬ W ≤ W - 1 := by omega
    simp [this]

theorem framer_offsets_and_count_witness :
    (0 ∈ frameOffsets 250 62 31) ∧ frameCount 250 62 31 = 7 ∧
    frameCount 62 62 31 = 1 ∧ frameCount 61 62 31 = 0 := by
  have h := framer_offsets_and_count 250 62 31 (by decide) (by decide)
  refine ⟨(h.1 0).mpr ⟨⟨0, rfl⟩, by decide⟩, ?_, ?_, ?_⟩
  · rw [h.2.1]; decide
  · have h62 := framer_offsets_and_count 250 62 31 (by decide) (by decide)
    exact h62.2.2.1
  · exact (framer_offsets_and_count 250 62 31 (by decide) (by decide)).2.2.2

/-- C2: the dB value at every (frame, bin) cell equals `20·log10(magnitude + ε)` with
`ε = 1e-10 > 0` fixed, and for fixed `ε` the dB value is monotonically non-decreasing
in the magnitude. -/
theorem db_formula_and_mono (mag : ℕ → ℕ → ℝ) (frame bin : ℕ) :
    dbGrid mag frame bin = 20 * Real.logb 10 (mag frame bin + epsFloor) ∧
    epsFloor = 1e-10 ∧ 0 < epsFloor ∧
    (∀ m₁ m₂ : ℝ, 0 ≤ m₁ → m₁ ≤ m₂ → dbOf m₁ ≤ dbOf m₂) := by
  exact ⟨rfl, rfl, epsFloor_pos, fun m₁ m₂ h0 h12 => dbOf_mono h0 h12⟩

theorem db_formula_and_mono_witness :
    dbGrid (fun _ _ => 0) 0 0 = 20 * Real.logb 10 (0 + epsFloor) ∧
    dbOf 0 ≤ dbOf 1 := by
  have h := db_formula_and_mono (fun _ _ => 0) 0 0
  exact ⟨h.1, h.2.2.2 0 1 (le_refl 0) zero_le_one⟩

/-- C3: for the fixed configuration (sample_rate 125 Hz, 250-sample signal, window 62,
hop 31), the Result has frame_count 7, frequency_bin_count 32, frame_time_step
31/125 = 0.248 s, and frequency_resolution 125/62, which is within 0.001 of 2.016 Hz. -/
theorem main_config_metadata :
    frameCount 250 mainConfig.window_size mainConfig.hop_size = 7 ∧
    resultBinCount mainConfig = 32 ∧
    resultFrameTime mainConfig = 248 / 1000 ∧
    resultFreqResolution mainConfig = 125 / 62 ∧
    |resultFreqResolution mainConfig - 2016 / 1000| < 1 / 1000 := by
  refine ⟨?_, by decide, by norm_num [resultFrameTime, mainConfig],
    by norm_num [resultFreqResolution, mainConfig], ?_⟩
  · show frameCount 250 62 31 = 7
    rw [frameCount_eq 250 62 31 (by decide) (by decide)]
    decide
  · rw [show resultFreqResolution mainConfig = 125 / 62 by
      norm_num [resultFreqResolution, mainConfig]]
    rw [abs_sub_lt_iff]
    norm_num

/-! ## The ctypes wrapper `STFTWrapper.perform_stft` (src/examples/stft_ctypes.py) -/

/-- The `STFTResult` C struct marshalled in `src/examples/stft_ctypes.py` lines 25-34.
The `spectrogram_data` pointer is only consumed by the engine-side
`stft_get_power_spectrogram_db`, which is modelled separately as an optional grid.
`message` is a `c_char_p`: a null pointer is `none`. -/
structure STFTResult where
  success : Bool
  frame_count : ℕ
  frequency_bin_count : ℕ
  frame_time : ℚ
  frequency_resolution : ℚ
  message : Option String
  deriving Repr, DecidableEq

/-- The dictionary returned by `STFTWrapper.perform_stft` on success
(`src/examples/stft_ctypes.py` lines 132-138): all five keys. -/
structure ResultDict where
  spectrogram : List (List ℚ)
  frame_count : ℕ
  frequency_bin_count : ℕ
  frame_time : ℚ
  frequency_resolution : ℚ
  deriving Repr, DecidableEq

/-- The deallocation calls the wrapper can issue (`src/examples/stft_ctypes.py`
lines 115, 121, 141-142). -/
inductive FreeEvent where
  | freeResult
  | free2dArray (rows : ℕ)
  deriving Repr, DecidableEq, BEq

/-- `true` exactly on `stft_free_2d_array` events. -/
def FreeEvent.isArrayFree : FreeEvent → Bool
  | .freeResult => false
  | .free2dArray _ => true

/-- `true` exactly on `stft_free_result` events. -/
def FreeEvent.isResultFree : FreeEvent → Bool
  | .freeResult => true
  | .free2dArray _ => false

/-- The nested-loop copy of the power grid into the fresh `np.zeros` float32 array
(`src/examples/stft_ctypes.py` lines 125-129); cells the grid does not cover keep the
zero initialisation. -/
def readGrid (power : List (List ℚ)) (fc bc : ℕ) : List (List ℚ) :=
  (List.range fc).map (fun f => (List.range bc).map (fun b => (power.getD f []).getD b 0))

/-- `STFTWrapper.perform_stft`, `src/examples/stft_ctypes.py` lines 104-144, after the
input conversion: the engine call either fails (null result pointer, `none`) or yields
an `STFTResult`; the later `stft_get_power_spectrogram_db` call either fails (null,
`none`) or yields the dB power grid.  Returns the wrapper's outcome (raised error or
result dictionary) together with the ordered list of free calls it issued.
A `c_char_p` message that is null or the empty C string is falsy in Python, so both
fall back to "Unknown error" (line 114). -/
def performStftWrapper (res : Option STFTResult) (power : Option (List (List ℚ))) :
    Except String ResultDict × List FreeEvent :=
  match res with
  | none => (Except.error "STFT computation failed", [])
  | some r =>
    if r.success then
      match power with
      | none => (Except.error "Failed to get power spectrogram", [FreeEvent.freeResult])
      | some g =>
        (Except.ok
          { spectrogram := readGrid g r.frame_count r.frequency_bin_count
            frame_count := r.frame_count
            frequency_bin_count := r.frequency_bin_count
            frame_time := r.frame_time
            frequency_resolution := r.frequency_resolution },
         [FreeEvent.free2dArray r.frame_count, FreeEvent.freeResult])
    else
      let msg := match r.message with
        | none => "Unknown error"
        | some m => if m = "" then "Unknown error" else m
      (Except.error ("STFT failed: " ++ msg), [FreeEvent.freeResult])

/-- `true` when the wrapper reaches the power-spectrogram retrieval and it succeeds:
the handles from which a power grid was actually obtained. -/
def powerObtained (res : Option STFTResult) (power : Option (List (List ℚ))) : Bool :=
  match res with
  | none => false
  | some r => r.success && power.isSome

/-! ## Claim theorems: wrapper error handling and resource release -/

/-- C6: every internal failure (null result pointer, `success = false`, null power
pointer) makes `perform_stft` raise an error and return no value, and every successful
return carries all five keys, each copied from the engine's result. -/
theorem wrapper_failures_raise_and_success_is_complete
    (res : Option STFTResult) (power : Option (List (List ℚ))) :
    (res = none → ∃ m, (performStftWrapper res power).1 = Except.error m) ∧
    (∀ r, res = some r → r.success = false →
      ∃ m, (performStftWrapper res power).1 = Except.error m) ∧
    (∀ r, res = some r → r.success = true → power = none →
      ∃ m, (performStftWrapper res power).1 = Except.error m) ∧
    (∀ d, (performStftWrapper res power).1 = Except.ok d →
      ∃ r g, res = some r ∧ power = some g ∧ r.success = true ∧
        d.spectrogram = readGrid g r.frame_count r.frequency_bin_count ∧
        d.frame_count = r.frame_count ∧
        d.frequency_bin_count = r.frequency_bin_count ∧
        d.frame_time = r.frame_time ∧
        d.frequency_resolution = r.frequency_resolution) := by
  refine ⟨?_, ?_, ?_, ?_⟩
  · rintro rfl
    exact ⟨_, rfl⟩
  · rintro r rfl hs
    simp [performStftWrapper, hs]
  · rintro r rfl hs rfl
    simp [performStftWrapper, hs]
  · intro d hd
    match res with
    | none => simp [performStftWrapper] at hd
    | some r =>
      by_cases hs : r.success
      · match power with
        | none => simp [performStftWrapper, hs] at hd
        | some g =>
          simp only [performStftWrapper, hs, if_true, Except.ok.injEq] at hd
          exact ⟨r, g, rfl, rfl, hs, by rw [← hd], by rw [← hd], by rw [← hd],
            by rw [← hd], by rw [← hd]⟩
      · simp [performStftWrapper, hs] at hd

theorem wrapper_failures_raise_and_success_is_complete_witness :
    (∃ m, (performStftWrapper none none).1 = Except.error m) ∧
    (∃ m, (performStftWrapper (some ⟨false, 0, 0, 0, 0, none⟩) none).1 = Except.error m) ∧
    (∃ m, (performStftWrapper (some ⟨true, 0, 0, 0, 0, none⟩) none).1 = Except.error m) := by
  refine ⟨(wrapper_failures_raise_and_success_is_complete none none).1 rfl, ?_, ?_⟩
  · exact (wrapper_failures_raise_and_success_is_complete
      (some ⟨false, 0, 0, 0, 0, none⟩) none).2.1 _ rfl rfl
  · exact (wrapper_failures_raise_and_success_is_complete
      (some ⟨true, 0, 0, 0, 0, none⟩) none).2.2.1 _ rfl rfl rfl

/-- C7: on every path, `stft_free_result` is called exactly once when the result
pointer is non-null and never otherwise, and `stft_free_2d_array` is called exactly
once when a power grid was obtained and never otherwise; no free ever targets a null
handle (a null result pointer produces an empty trace) and none is issued twice. -/
theorem wrapper_frees_each_handle_exactly_once
    (res : Option STFTResult) (power : Option (List (List ℚ))) :
    ((performStftWrapper res power).2.countP FreeEvent.isResultFree =
      if res.isSome then 1 else 0) ∧
    ((performStftWrapper res power).2.countP FreeEvent.isArrayFree =
      if powerObtained res power then 1 else 0) ∧
    (res = none → (performStftWrapper res power).2 = []) := by
  match res with
  | none => exact ⟨rfl, rfl, fun _ => rfl⟩
  | some r =>
    by_cases hs : r.success
    · match power with
      | none =>
        refine ⟨?_, ?_, by simp⟩ <;>
          simp [performStftWrapper, powerObtained, hs, List.countP,
            List.countP.go, FreeEvent.isArrayFree, FreeEvent.isResultFree]
      | some g =>
        refine ⟨?_, ?_, by simp⟩ <;>
          simp [performStftWrapper, powerObtained, hs, List.countP,
            List.countP.go, FreeEvent.isArrayFree, FreeEvent.isResultFree]
    · refine ⟨?_, ?_, by simp⟩ <;>
        simp [performStftWrapper, powerObtained, hs, List.countP,
          List.countP.go, FreeEvent.isArrayFree, FreeEvent.isResultFree]

theorem wrapper_frees_each_handle_exactly_once_witness :
    ((performStftWrapper (some ⟨true, 2, 3, 0, 0, none⟩)
        (some [[1, 2, 3], [4, 5, 6]])).2.countP FreeEvent.isResultFree = 1) ∧
    ((performStftWrapper (some ⟨true, 2, 3, 0, 0, none⟩)
        (some [[1, 2, 3], [4, 5, 6]])).2.countP FreeEvent.isArrayFree = 1) ∧
    (performStftWrapper none none).2 = [] := by
  have h1 := wrapper_frees_each_handle_exactly_once
    (some ⟨true, 2, 3, 0, 0, none⟩) (some [[1, 2, 3], [4, 5, 6]])
  have h2 := wrapper_frees_each_handle_exactly_once none none
  exact ⟨by rw [h1.1]; rfl, by rw [h1.2.1]; rfl, h2.2.2 rfl⟩

/-- C10: when the engine reports failure with a null message pointer, the wrapper
still raises an error whose text contains "Unknown error" (it never dereferences the
null message and never returns a value), after freeing the result exactly once. -/
theorem wrapper_null_message_reports_unknown_error
    (fc bc : ℕ) (ft fr : ℚ) (power : Option (List (List ℚ))) :
    performStftWrapper (some ⟨false, fc, bc, ft, fr, none⟩) power =
      (Except.error ("STFT failed: " ++ "Unknown error"), [FreeEvent.freeResult]) := by
  rfl

/-! ## Input conversion: element type and contiguity (src/examples/stft_ctypes.py 86-105) -/

/-- Numpy dtypes distinguished by the wrapper's conversion logic. -/
inductive NPDType where
  | float32
  | float64
  | int64
  | otherType
  deriving Repr, DecidableEq

/-- The dtype and memory-layout flags of a numpy array, the attributes the wrapper's
conversion branches inspect (`signal.dtype`, `signal.flags['C_CONTIGUOUS']`). -/
structure NDArray where
  dtype : NPDType
  c_contiguous : Bool
  deriving Repr, DecidableEq

/-- The wrapper accepts any sequence or any numpy array
(`src/examples/stft_ctypes.py` lines 87-94). -/
inductive PySignal where
  | pySequence
  | pyArray (a : NDArray)
  deriving Repr, DecidableEq

/-- The conversion pipeline of `STFTWrapper.perform_stft`, lines 86-94:
`np.array(signal, dtype=np.float32)` for a non-ndarray (fresh C-contiguous array);
`signal.astype(np.float32)` when the dtype differs (a copy in the source's memory
order, so the contiguity flag is carried over); then `np.ascontiguousarray` when the
array is not C-contiguous. -/
def convertSignal : PySignal → NDArray
  | .pySequence => ⟨NPDType.float32, true⟩
  | .pyArray a =>
    let a1 := if a.dtype = NPDType.float32 then a else ⟨NPDType.float32, a.c_contiguous⟩
    if a1.c_contiguous then a1 else ⟨a1.dtype, true⟩

/-- The output array allocated for the spectrogram:
`np.zeros((frame_count, frequency_bin_count), dtype=np.float32)` (line 125), a fresh
C-contiguous 32-bit float array. -/
def spectrogramAlloc : NDArray := ⟨NPDType.float32, true⟩

/-- C8: whatever the input (sequence or array of any dtype, any layout), the array
handed to the engine is a C-contiguous float32 array, and the spectrogram handed back
to the caller is a (C-contiguous) float32 array. -/
theorem boundary_preserves_float32_contiguous (sig : PySignal) :
    (convertSignal sig).dtype = NPDType.float32 ∧
    (convertSignal sig).c_contiguous = true ∧
    spectrogramAlloc.dtype = NPDType.float32 ∧
    spectrogramAlloc.c_contiguous = true := by
  match sig with
  | .pySequence => exact ⟨rfl, rfl, rfl, rfl⟩
  | .pyArray a =>
    rcases a with ⟨d, c⟩
    cases d <;> cases c <;> simp [convertSignal, spectrogramAlloc]

/-! ## CSV serialization orientation (C5) -/

/-- One CSV line per grid row, cells comma-separated: `np.savetxt(..., delimiter=',')`
as used in both `src/examples/stft_ctypes.py` line 183 and
`src/examples/generate_scipy_stft.py` line 25. -/
def csvLines (grid : List (List ℚ)) : List String :=
  grid.map (fun row => String.intercalate "," (row.map toString))

/-- The grid the wrapper saves: `result['spectrogram']` of shape
(frame_count, frequency_bin_count) — rows are time frames
(`src/examples/stft_ctypes.py` lines 125-129, 183).  `v f b` is the dB value at
frame `f`, bin `b`. -/
def wrapperSavedGrid (fc bc : ℕ) (v : ℕ → ℕ → ℚ) : List (List ℚ) :=
  (List.range fc).map (fun f => (List.range bc).map (fun b => v f b))

/-- Modelled from the spec: the grid the reference oracle saves.  `scipy.signal.stft`
(third-party, not under `src/`) returns `Zxx` indexed frequency × time, so the `db`
array saved by `np.savetxt("scipy_stft.csv", db)` (`src/examples/generate_scipy_stft.py`
lines 10-25) has rows = frequency bins (spec §9: the observed orientation of the
oracle's output differs from the wrapper's). -/
def oracleSavedGrid (fc bc : ℕ) (v : ℕ → ℕ → ℚ) : List (List ℚ) :=
  (List.range bc).map (fun b => (List.range fc).map (fun f => v f b))

lemma getD_map_range {α : Type} (n i : ℕ) (g : ℕ → α) (d : α) (h : i < n) :
    ((List.range n).map g).getD i d = g i := by
  rw [List.getD_eq_getElem _ _ (by simpa using h)]
  simp

/-- C5 counterexample: at the end-to-end configuration (7 frames × 32 bins) the
wrapper's CSV has 7 lines while the oracle's CSV has 32 lines, so the row/column
orientations of the two saved CSVs do not match. -/
theorem csv_orientation_differs :
    (csvLines (wrapperSavedGrid 7 32 (fun _ _ => 0))).length ≠
      (csvLines (oracleSavedGrid 7 32 (fun _ _ => 0))).length := by
  simp [csvLines, wrapperSavedGrid, oracleSavedGrid]

/-- C5 (amended): both CSVs are one row per line with comma-separated values, but
their orientations are transposed rather than matching: the wrapper's CSV has one line
per time frame while the oracle's CSV has one line per frequency bin, and the cell at
(frame, bin) of the wrapper's grid equals the cell at (bin, frame) of the oracle's. -/
theorem csv_one_row_per_line_transposed_orientation
    (fc bc : ℕ) (v : ℕ → ℕ → ℚ) :
    (csvLines (wrapperSavedGrid fc bc v)).length = fc ∧
    (csvLines (oracleSavedGrid fc bc v)).length = bc ∧
    (∀ f, f < fc → (csvLines (wrapperSavedGrid fc bc v)).getD f "" =
      String.intercalate "," (((List.range bc).map (fun b => v f b)).map toString)) ∧
    (∀ f b, f < fc → b < bc →
      ((wrapperSavedGrid fc bc v).getD f []).getD b 0 =
        ((oracleSavedGrid fc bc v).getD b []).getD f 0) := by
  refine ⟨by simp [csvLines, wrapperSavedGrid], by simp [csvLines, oracleSavedGrid],
    ?_, ?_⟩
  · intro f hf
    unfold csvLines wrapperSavedGrid
    rw [List.map_map]
    exact getD_map_range fc f _ "" hf
  · intro f b hf hb
    unfold wrapperSavedGrid oracleSavedGrid
    rw [getD_map_range fc f _ [] hf, getD_map_range bc b _ [] hb,
      getD_map_range bc b _ 0 hb, getD_map_range fc f _ 0 hf]

theorem csv_one_row_per_line_transposed_orientation_witness :
    (csvLines (wrapperSavedGrid 7 32 (fun f b => (f : ℚ) + b))).length = 7 ∧
    ((wrapperSavedGrid 7 32 (fun f b => (f : ℚ) + b)).getD 2 []).getD 5 0 =
      ((oracleSavedGrid 7 32 (fun f b => (f : ℚ) + b)).getD 5 []).getD 2 0 := by
  have h := csv_one_row_per_line_transposed_orientation 7 32 (fun f b => (f : ℚ) + b)
  exact ⟨h.1, h.2.2.2 2 5 (by decide) (by decide)⟩

/-! ## Non-mutation of the caller's signal (C9) -/

/-- A heap of numpy buffers: buffer id → contents; `next` is the first unused id. -/
structure MemState where
  heap : ℕ → List ℚ
  next : ℕ

/-- Allocate a fresh buffer holding `contents` (a numpy copy). -/
def allocBuf (s : MemState) (contents : List ℚ) : ℕ × MemState :=
  (s.next, ⟨Function.update s.heap s.next contents, s.next + 1⟩)

/-- The caller's ndarray: its buffer id plus the flags the conversion inspects. -/
structure CallerArray where
  buf : ℕ
  dtype : NPDType
  c_contiguous : Bool

/-- The conversion pipeline of `STFTWrapper.perform_stft`
(`src/examples/stft_ctypes.py` lines 86-94) at buffer level: `astype(np.float32)`
copies into a fresh buffer when the dtype differs, `np.ascontiguousarray` copies when
the layout is not C-contiguous, and when the input is already float32 and contiguous
the caller's own buffer is handed on unchanged.  (The numeric effect of the float32
cast is not modelled; only which buffers are written matters here.)  Returns the
buffer passed to the engine via `signal.ctypes.data_as` (line 105). -/
def convertSignalMem (a : CallerArray) (s : MemState) : ℕ × MemState :=
  let p := if a.dtype = NPDType.float32 then (a.buf, s) else allocBuf s (s.heap a.buf)
  if a.c_contiguous then p else allocBuf p.2 (p.2.heap p.1)

/-- `STFTWrapper.perform_stft` at buffer level: convert the input, hand the converted
buffer to the engine, copy the engine's grid into a fresh `np.zeros` float32 buffer
(lines 125-129) and return it together with the grid.  The engine is a parameter:
Modelled from the spec, the C engine (`stft.c`, not under `src/`) is stateless and
read-only on its input for its entire lifetime (spec §5), hence a pure function of the
signal contents. -/
def performStftMem (engine : List ℚ → List (List ℚ)) (a : CallerArray) (s : MemState) :
    (ℕ × List (List ℚ)) × MemState :=
  let c := convertSignalMem a s
  let grid := engine (c.2.heap c.1)
  let o := allocBuf c.2 grid.flatten
  ((o.1, grid), o.2)

lemma allocBuf_heap_lt (s : MemState) (c : List ℚ) (i : ℕ) (hi : i < s.next) :
    (allocBuf s c).2.heap i = s.heap i := by
  show Function.update s.heap s.next c i = s.heap i
  rw [Function.update_apply, if_neg (by omega)]

lemma allocBuf_heap_self (s : MemState) (c : List ℚ) :
    (allocBuf s c).2.heap (allocBuf s c).1 = c := by
  show Function.update s.heap s.next c s.next = c
  rw [Function.update_same]

lemma convertSignalMem_heap_preserved (a : CallerArray) (s : MemState) (i : ℕ)
    (hi : i < s.next) : (convertSignalMem a s).2.heap i = s.heap i := by
  rcases a with ⟨b, d, cf⟩
  by_cases hd : d = NPDType.float32 <;> cases cf <;>
      simp only [convertSignalMem, hd, if_true, if_false, Bool.false_eq_true,
        reduceIte]
  · rw [allocBuf_heap_lt _ _ _ hi]
  · rw [allocBuf_heap_lt _ _ _ (by simp [allocBuf]; omega),
      allocBuf_heap_lt _ _ _ hi]
  · rw [allocBuf_heap_lt _ _ _ hi]

lemma convertSignalMem_next_le (a : CallerArray) (s : MemState) :
    s.next ≤ (convertSignalMem a s).2.next := by
  rcases a with ⟨b, d, cf⟩
  by_cases hd : d = NPDType.float32 <;> cases cf <;>
      simp only [convertSignalMem, hd, if_true, if_false, Bool.false_eq_true,
        reduceIte, allocBuf] <;>
    omega

lemma convertSignalMem_contents (a : CallerArray) (s : MemState) :
    (convertSignalMem a s).2.heap (convertSignalMem a s).1 = s.heap a.buf := by
  rcases a with ⟨b, d, cf⟩
  by_cases hd : d = NPDType.float32 <;> cases cf <;>
      simp only [convertSignalMem, hd, if_true, if_false, Bool.false_eq_true,
        reduceIte]
  · rw [allocBuf_heap_self]
  · rw [allocBuf_heap_self, allocBuf_heap_self]
  · rw [allocBuf_heap_self]

lemma performStftMem_heap_preserved (engine : List ℚ → List (List ℚ))
    (a : CallerArray) (s : MemState) (i : ℕ) (hi : i < s.next) :
    (performStftMem engine a s).2.heap i = s.heap i := by
  have h1 := convertSignalMem_next_le a s
  show (allocBuf (convertSignalMem a s).2 _).2.heap i = s.heap i
  rw [allocBuf_heap_lt _ _ _ (by omega)]
  exact convertSignalMem_heap_preserved a s i hi

lemma performStftMem_next_lt (engine : List ℚ → List (List ℚ))
    (a : CallerArray) (s : MemState) : s.next < (performStftMem engine a s).2.next := by
  have h1 := convertSignalMem_next_le a s
  show s.next < (allocBuf (convertSignalMem a s).2 _).2.next
  show s.next < (convertSignalMem a s).2.next + 1
  omega

lemma performStftMem_grid (engine : List ℚ → List (List ℚ))
    (a : CallerArray) (s : MemState) :
    (performStftMem engine a s).1.2 = engine (s.heap a.buf) := by
  show engine ((convertSignalMem a s).2.heap (convertSignalMem a s).1) =
    engine (s.heap a.buf)
  rw [convertSignalMem_contents a s]

/-- C9: `perform_stft` never mutates the caller's signal buffer — every pre-existing
buffer (in particular the caller's) holds identical contents before and after the
call, conversions writing only to fresh copies — and, the engine being a pure function
of the signal contents (spec §5), no state persists across invocations: a second call
on the post-call state computes the same grid as the first. -/
theorem wrapper_does_not_mutate_caller_signal (engine : List ℚ → List (List ℚ))
    (a : CallerArray) (s : MemState) (hb : a.buf < s.next) :
    (∀ i, i < s.next → (performStftMem engine a s).2.heap i = s.heap i) ∧
    (performStftMem engine a s).2.heap a.buf = s.heap a.buf ∧
    (performStftMem engine a ((performStftMem engine a s).2)).1.2 =
      (performStftMem engine a s).1.2 := by
  refine ⟨fun i hi => performStftMem_heap_preserved engine a s i hi,
    performStftMem_heap_preserved engine a s a.buf hb, ?_⟩
  rw [performStftMem_grid engine a s,
    performStftMem_grid engine a ((performStftMem engine a s).2),
    performStftMem_heap_preserved engine a s a.buf hb]

theorem wrapper_does_not_mutate_caller_signal_witness :
    (performStftMem (fun l => [l]) ⟨0, NPDType.float64, false⟩
      ⟨fun _ => [3], 1⟩).2.heap 0 = [3] := by
  exact (wrapper_does_not_mutate_caller_signal (fun l => [l])
    ⟨0, NPDType.float64, false⟩ ⟨fun _ => [3], 1⟩ (by decide)).2.1.trans rfl

end STFT
